import Mathlib

/-!
Verification of the lawn-care regional timing engine against its
natural-language specification.

The shipped source contains the engine's consumer-side schedule tables in the
browser UI (`LawnCalculator.getCurrentActivities`), which are transcribed here
verbatim.  The validator and next-window search algorithms themselves are not
shipped alongside the UI, so they are modelled from the specification
(sections 4.4 and 4.5) and evaluated over the shipped tables.
-/

namespace LawnCare

/-- Monthly activity table for the `northern` region, transcribed from the
`schedules` object inside `getCurrentActivities`.  Month keys absent from the
JavaScript object (including anything outside 1–12) yield `undefined`, which
the call site's `|| []` fallback turns into the empty list; that fallback is
folded into the catch-all branch here. -/
def northernSchedule : Nat → List String
  | 1 => [] | 2 => [] | 3 => ["Dethatching"]
  | 4 => ["Seeding", "Fertilizing", "Dethatching", "Aeration"]
  | 5 => ["Seeding", "Fertilizing", "Dethatching", "Aeration", "Grub Control"]
  | 6 => ["Fertilizing", "Grub Control"]
  | 7 => ["Fertilizing", "Weed Control", "Grub Control"]
  | 8 => ["Fertilizing", "Weed Control", "Overseeding", "Grub Control"]
  | 9 => ["Fertilizing", "Weed Control", "Overseeding"]
  | 10 => ["Fertilizing", "Winterizing"]
  | 11 => ["Winterizing"] | 12 => []
  | _ => []

/-- Monthly activity table for the `central` region, transcribed from the
`schedules` object inside `getCurrentActivities`. -/
def centralSchedule : Nat → List String
  | 1 => [] | 2 => [] | 3 => ["Fertilizing", "Dethatching"]
  | 4 => ["Seeding", "Fertilizing", "Dethatching", "Aeration"]
  | 5 => ["Seeding", "Fertilizing", "Dethatching", "Aeration", "Grub Control"]
  | 6 => ["Seeding", "Fertilizing", "Aeration", "Grub Control"]
  | 7 => ["Fertilizing", "Weed Control", "Aeration", "Grub Control"]
  | 8 => ["Fertilizing", "Weed Control", "Overseeding", "Grub Control"]
  | 9 => ["Fertilizing", "Weed Control", "Overseeding", "Grub Control"]
  | 10 => ["Fertilizing", "Weed Control", "Overseeding"]
  | 11 => ["Fertilizing", "Overseeding", "Winterizing"]
  | 12 => ["Winterizing"]
  | _ => []

/-- Monthly activity table for the `southern` region, transcribed from the
`schedules` object inside `getCurrentActivities`. -/
def southernSchedule : Nat → List String
  | 1 => ["Fertilizing", "Weed Control"]
  | 2 => ["Fertilizing", "Dethatching", "Weed Control"]
  | 3 => ["Seeding", "Fertilizing", "Dethatching", "Weed Control"]
  | 4 => ["Seeding", "Fertilizing", "Dethatching", "Weed Control"]
  | 5 => ["Seeding", "Fertilizing", "Aeration", "Weed Control", "Grub Control"]
  | 6 => ["Fertilizing", "Aeration", "Weed Control", "Grub Control"]
  | 7 => ["Fertilizing", "Aeration", "Weed Control", "Grub Control"]
  | 8 => ["Fertilizing", "Weed Control", "Grub Control"]
  | 9 => ["Fertilizing", "Weed Control", "Overseeding", "Grub Control"]
  | 10 => ["Fertilizing", "Weed Control", "Overseeding", "Grub Control"]
  | 11 => ["Fertilizing", "Weed Control", "Overseeding"]
  | 12 => ["Winterizing"]
  | _ => []

/-- The `schedules[region]` lookup of `getCurrentActivities`: the JavaScript
object holds exactly the keys `northern`, `central`, `southern`; any other
region string yields `undefined`. -/
def schedulesFor : String → Option (Nat → List String)
  | "northern" => some northernSchedule
  | "central" => some centralSchedule
  | "southern" => some southernSchedule
  | _ => none

/-- `getCurrentActivities(region, month)` returns
`schedules[region][month] || []`.  When the region key is absent,
`schedules[region]` is `undefined` and indexing it throws a `TypeError`;
that crash is modelled as `none`.  For a known region the result is always a
plain list, with absent month keys silently mapped to `[]`. -/
def getCurrentActivities (region : String) (month : Nat) : Option (List String) :=
  (schedulesFor region).map (fun t => t month)

/-- The closed enumeration of the 8 supported activities (spec section 3). -/
inductive Activity where
  | Seeding | Fertilizing | Dethatching | Aeration
  | Overseeding | WeedControl | GrubControl | Winterizing
deriving DecidableEq, Fintype

/-- The display string of each activity, exactly as it appears in the
schedule tables of the source. -/
def Activity.label : Activity → String
  | .Seeding => "Seeding"
  | .Fertilizing => "Fertilizing"
  | .Dethatching => "Dethatching"
  | .Aeration => "Aeration"
  | .Overseeding => "Overseeding"
  | .WeedControl => "Weed Control"
  | .GrubControl => "Grub Control"
  | .Winterizing => "Winterizing"

/-- The closed enumeration of the 3 supported regions (spec section 3). -/
inductive Region where
  | Northern | Central | Southern
deriving DecidableEq, Fintype

/-- The source schedule table belonging to each region. -/
def Region.schedule : Region → (Nat → List String)
  | .Northern => northernSchedule
  | .Central => centralSchedule
  | .Southern => southernSchedule

/-- Whether the source schedule table recommends activity `a` in region `r`
during month `m`. -/
def tableMember (r : Region) (a : Activity) (m : Nat) : Bool :=
  decide (a.label ∈ r.schedule m)

/-- A month window `startMonth`–`endMonth`; `startMonth > endMonth` denotes a
window wrapping across the year boundary (spec section 3). -/
structure MonthRange where
  startMonth : Nat
  endMonth : Nat
deriving DecidableEq

/-- An inclusive Fahrenheit temperature range (spec section 3). -/
structure TemperatureRange where
  minF : Int
  maxF : Int
deriving DecidableEq

/-- Modelled from the spec: the ConditionValidator month-in-window test
(section 4.4 step 2), whose implementation is not shipped with the UI.
If `start <= end` the month is a member iff `start <= month <= end`; if
`start > end` (wraparound) iff `month >= start` or `month <= end`. -/
def monthInWindow (w : MonthRange) (m : Nat) : Bool :=
  if w.startMonth ≤ w.endMonth then decide (w.startMonth ≤ m ∧ m ≤ w.endMonth)
  else decide (w.startMonth ≤ m ∨ m ≤ w.endMonth)

/-- Modelled from the spec: the ConditionValidator temperature-in-range test
(section 4.4 step 3), inclusive at both boundaries. -/
def tempInRange (t : TemperatureRange) (x : Int) : Bool :=
  decide (t.minF ≤ x ∧ x ≤ t.maxF)

/-- The month preceding `m` in calendar order, wrapping 1 back to 12. -/
def prevMonth (m : Nat) : Nat := if m = 1 then 12 else m - 1

/-- The month following `m` in calendar order, wrapping 12 forward to 1. -/
def nextMonth (m : Nat) : Nat := if m = 12 then 1 else m + 1

/-- The calendar months 1 through 12. -/
def monthsList : List Nat := (List.range 12).map (· + 1)

/-- First month of the (single, possibly wrapping) run of months in which the
source table recommends `a` for `r`: the month that is a member while its
predecessor is not.  This inverts the spec's ScheduleGenerator contract
(section 4.6: an activity appears in a month iff the month-membership test on
the effective window passes). -/
def windowStart (r : Region) (a : Activity) : Nat :=
  (monthsList.find? (fun m => tableMember r a m && !tableMember r a (prevMonth m))).getD 1

/-- Last month of the run of months in which the source table recommends `a`
for `r`: the month that is a member while its successor is not. -/
def windowEnd (r : Region) (a : Activity) : Nat :=
  (monthsList.find? (fun m => tableMember r a m && !tableMember r a (nextMonth m))).getD 12

/-- The effective month window of `(a, r)`, recovered from the source
schedule table via the run boundaries. -/
def effectiveWindow (r : Region) (a : Activity) : MonthRange :=
  ⟨windowStart r a, windowEnd r a⟩

/-- The three-way outcome of the ConditionValidator (spec section 3). -/
inductive ActivityStatus where
  | Optimal | Suboptimal | NotRecommended
deriving DecidableEq, BEq

/-- Modelled from the spec: the per-activity optimal temperature ranges of
the ActivityCatalog, which is not shipped with the UI.  The spec fixes only
Seeding's range (55–80°F, sections 4.1 and 8); for the remaining activities
it states no numbers, so the model leaves them at the spec's sane physical
bound −50–150°F (section 7). -/
def tempRange : Activity → TemperatureRange
  | .Seeding => ⟨55, 80⟩
  | _ => ⟨-50, 150⟩

/-- Modelled from the spec: ConditionValidator.classify (section 4.4 step 4):
`Optimal` if both the month test and the temperature test pass,
`NotRecommended` if neither passes, `Suboptimal` otherwise.  The effective
month window is resolved from the source schedule table. -/
def classify (a : Activity) (r : Region) (m : Nat) (t : Int) : ActivityStatus :=
  match monthInWindow (effectiveWindow r a) m, tempInRange (tempRange a) t with
  | true, true => .Optimal
  | false, false => .NotRecommended
  | _, _ => .Suboptimal

/-- Modelled from the spec: `isOptimal` is `classify(...) == Optimal`
(section 4.4 step 4). -/
def isOptimal (a : Activity) (r : Region) (m : Nat) (t : Int) : Bool :=
  classify a r m t == ActivityStatus.Optimal

/-- The month reached `k` calendar steps after month `m`, staying in 1–12. -/
def shiftMonth (m k : Nat) : Nat := (m - 1 + k) % 12 + 1

/-- A date at month granularity, linearized: `(year, month)` becomes
`year * 12 + (month - 1)`. -/
def monthsIndex (y m : Nat) : Nat := y * 12 + (m - 1)

/-- The `(year, month)` date of a linearized month count. -/
def toDate (n : Nat) : Nat × Nat := (n / 12, n % 12 + 1)

/-- Date order at month granularity: strictly earlier year, or same year and
strictly earlier month. -/
def dateLt (a b : Nat × Nat) : Prop := a.1 < b.1 ∨ (a.1 = b.1 ∧ a.2 < b.2)

/-- Date order at month granularity: earlier year, or same year and month no
later. -/
def dateLe (a b : Nat × Nat) : Prop := a.1 < b.1 ∨ (a.1 = b.1 ∧ a.2 ≤ b.2)

/-- Modelled from the spec: the NextWindowFinder forward circular scan
(section 4.5 steps 2–3).  Starting at the `fromDate` month, at most 13
month-steps are tested; a step qualifies when its month is a member of the
window, and additionally the step is non-zero whenever the `fromDate` month
is itself inside the window (so the search returns the next occurrence, not
the current one). -/
def findStartK (mem : Nat → Bool) (m : Nat) : Option Nat :=
  (List.range 14).find? (fun k => (decide (1 ≤ k) || !mem m) && mem (shiftMonth m k))

/-- Modelled from the spec: the window-end scan (section 4.5 step 4), as the
count of consecutive member months starting at `m`.  The count is capped at
12 so that a window covering every month still terminates. -/
def runLen (mem : Nat → Bool) (m : Nat) : Nat :=
  ((List.range 12).takeWhile (fun k => mem (shiftMonth m k))).length

/-- Modelled from the spec: NextWindowFinder.nextWindow (section 4.5) over an
arbitrary month-membership predicate.  Returns the `(start, end)` dates at
month granularity, or `none` (the `NoWindowFound` error) when no month of
the 13-step scan is a member. -/
def nextWindowFrom (mem : Nat → Bool) (y m : Nat) : Option ((Nat × Nat) × (Nat × Nat)) :=
  match findStartK mem m with
  | none => none
  | some k =>
      let s := monthsIndex y m + k
      some (toDate s, toDate (s + (runLen mem (shiftMonth m k) - 1)))

/-- Modelled from the spec: `NextWindow(activity, region, fromDate)`
(section 4.5), with month membership taken from the source schedule table
(the table equals the effective window's membership, see the schedule
contiguity theorem). -/
def nextWindow (a : Activity) (r : Region) (y m : Nat) :
    Option ((Nat × Nat) × (Nat × Nat)) :=
  nextWindowFrom (fun mm => tableMember r a mm) y m

lemma monthsIndex_toDate (n : Nat) :
    monthsIndex (toDate n).1 (toDate n).2 = n := by
  simp only [monthsIndex, toDate]
  omega

lemma toDate_month_bounds (n : Nat) :
    1 ≤ (toDate n).2 ∧ (toDate n).2 ≤ 12 := by
  simp only [toDate]
  omega

lemma dateLt_iff_index (ya ma yb mb : Nat)
    (hA1 : 1 ≤ ma) (hA2 : ma ≤ 12) (hB1 : 1 ≤ mb) (hB2 : mb ≤ 12) :
    dateLt (ya, ma) (yb, mb) ↔ monthsIndex ya ma < monthsIndex yb mb := by
  simp only [dateLt, monthsIndex]
  omega

lemma dateLe_iff_index (ya ma yb mb : Nat)
    (hA1 : 1 ≤ ma) (hA2 : ma ≤ 12) (hB1 : 1 ≤ mb) (hB2 : mb ≤ 12) :
    dateLe (ya, ma) (yb, mb) ↔ monthsIndex ya ma ≤ monthsIndex yb mb := by
  simp only [dateLe, monthsIndex]
  omega

lemma findStartK_some_spec (mem : Nat → Bool) (m k : Nat)
    (h : findStartK mem m = some k) :
    k ≤ 13 ∧ (mem m = true → 1 ≤ k) ∧ mem (shiftMonth m k) = true := by
  have hp := List.find?_some h
  have hmem := List.mem_of_find?_eq_some h
  rw [List.mem_range] at hmem
  simp only [Bool.and_eq_true, Bool.or_eq_true, decide_eq_true_eq,
    Bool.not_eq_true'] at hp
  refine ⟨by omega, ?_, hp.2⟩
  intro hm
  rcases hp.1 with h1 | h2
  · exact h1
  · rw [hm] at h2; cases h2

lemma findStartK_eq_none (mem : Nat → Bool) (m : Nat)
    (h1 : 1 ≤ m) (h2 : m ≤ 12) :
    findStartK mem m = none ↔ ∀ mm, 1 ≤ mm → mm ≤ 12 → mem mm = false := by
  unfold findStartK
  rw [List.find?_eq_none]
  constructor
  · intro h mm hm1 hm2
    have hk := h ((mm + 11 - m) % 12 + 1) (by rw [List.mem_range]; omega)
    simp only [Bool.and_eq_true, Bool.or_eq_true, decide_eq_true_eq,
      Bool.not_eq_true', not_and, not_or] at hk
    have hsh : shiftMonth m ((mm + 11 - m) % 12 + 1) = mm := by
      unfold shiftMonth; omega
    rw [hsh] at hk
    have := hk (Or.inl (by omega))
    exact Bool.not_eq_true _ ▸ this
  · intro hall k _
    have hb : 1 ≤ shiftMonth m k ∧ shiftMonth m k ≤ 12 := by
      unfold shiftMonth; omega
    have hmm := hall _ hb.1 hb.2
    simp [hmm]

lemma nextWindowFrom_none_iff (mem : Nat → Bool) (y m : Nat)
    (h1 : 1 ≤ m) (h2 : m ≤ 12) :
    nextWindowFrom mem y m = none ↔ ∀ mm, 1 ≤ mm → mm ≤ 12 → mem mm = false := by
  rw [← findStartK_eq_none mem m h1 h2]
  unfold nextWindowFrom
  cases findStartK mem m <;> simp

lemma nextWindowFrom_some_spec (mem : Nat → Bool) (y m : Nat)
    (h1 : 1 ≤ m) (h2 : m ≤ 12) (s e : Nat × Nat)
    (hr : nextWindowFrom mem y m = some (s, e)) :
    (mem m = true → dateLt (y, m) s) ∧ dateLe (y, m) s ∧ dateLe s e ∧
      monthsIndex y m ≤ monthsIndex s.1 s.2 ∧
      monthsIndex s.1 s.2 ≤ monthsIndex y m + 13 := by
  obtain ⟨sy, sm⟩ := s
  obtain ⟨ey, em⟩ := e
  unfold nextWindowFrom at hr
  cases hk : findStartK mem m with
  | none => rw [hk] at hr; cases hr
  | some k =>
      rw [hk] at hr
      simp only [Option.some.injEq, Prod.mk.injEq] at hr
      obtain ⟨hs, he⟩ := hr
      obtain ⟨hkle, hkpos, _⟩ := findStartK_some_spec mem m k hk
      have hsidx := monthsIndex_toDate (monthsIndex y m + k)
      have heidx := monthsIndex_toDate
        (monthsIndex y m + k + (runLen mem (shiftMonth m k) - 1))
      have hsb := toDate_month_bounds (monthsIndex y m + k)
      have heb := toDate_month_bounds
        (monthsIndex y m + k + (runLen mem (shiftMonth m k) - 1))
      rw [hs] at hsidx hsb
      rw [he] at heidx heb
      simp only at hsidx heidx hsb heb
      refine ⟨?_, ?_, ?_, ?_, ?_⟩
      · intro hm
        have hk1 := hkpos hm
        rw [dateLt_iff_index y m sy sm h1 h2 hsb.1 hsb.2]
        omega
      · rw [dateLe_iff_index y m sy sm h1 h2 hsb.1 hsb.2]
        omega
      · rw [dateLe_iff_index sy sm ey em hsb.1 hsb.2 heb.1 heb.2]
        omega
      · show monthsIndex y m ≤ monthsIndex sy sm
        omega
      · show monthsIndex sy sm ≤ monthsIndex y m + 13
        omega

/-- Every `(activity, region)` pair has at least one recommended month in the
source schedule table. -/
lemma tableMember_nonempty :
    ∀ (a : Activity) (r : Region), ∃ mm : Fin 12,
      tableMember r a (mm.1 + 1) = true := by decide

/-- Each of the three schedule tables maps every month key outside 1–12 to
the empty list (the catch-all branch of the transcription, which folds in the
call site's `|| []` fallback). -/
lemma schedule_tables_invalid_month (month : Nat) (hm : month = 0 ∨ 12 < month) :
    northernSchedule month = [] ∧ centralSchedule month = [] ∧
      southernSchedule month = [] := by
  rcases hm with h | h
  · subst h; exact ⟨rfl, rfl, rfl⟩
  · obtain ⟨n, rfl⟩ : ∃ n, month = n + 13 := ⟨month - 13, by omega⟩
    exact ⟨rfl, rfl, rfl⟩

/-- C1: the claim says the Southern monthly schedule includes Winterizing in
both month 12 and month 1 (year-boundary wrap).  Evaluating the shipped
southern schedule table refutes the month-1 half: month 12 lists Winterizing
but month 1 lists only Fertilizing and Weed Control, although the
repository's own feature scenario (regional_variations.feature, year-boundary
scenario) requires Winterizing on both sides of the boundary. -/
theorem southern_winterizing_month1_missing :
    "Winterizing" ∈ southernSchedule 12 ∧ "Winterizing" ∉ southernSchedule 1 := by
  decide

/-- C2: the claim says NextWindow(Overseeding, Southern, 2024-06-15) starts in
August 2024.  Over the shipped southern table, Overseeding is recommended in
months 9–11 and not in August, so the spec-modelled forward scan started at
June 2024 returns a September 2024 start (ending November 2024) — refuting
the August half while the 30-day-span half holds. -/
theorem overseeding_southern_next_window_september :
    nextWindow Activity.Overseeding Region.Southern 2024 6 =
      some ((2024, 9), (2024, 11)) ∧
    tableMember Region.Southern Activity.Overseeding 8 = false := by
  decide

/-- C3 counterexample: the claim says every invalid input at the public
boundary surfaces a distinct typed error and is never silently ignored.  At
the shipped boundary (`getCurrentActivities`), the out-of-range month 13 is
silently mapped to the normal empty-list result rather than an
`InvalidMonth` error, and an unknown region crashes with a generic
`TypeError` (modelled as `none`) rather than an `UnknownRegion` error. -/
theorem invalid_input_silent_fallback :
    getCurrentActivities "southern" 13 = some [] ∧
    getCurrentActivities "atlantis" 5 = none := by
  decide

/-- C3 amended: at the shipped public boundary there is no typed error
taxonomy.  For every region string and every month outside 1–12, the result
equals the region lookup with the activity list silently replaced by `[]`:
a known region yields `some []` (the `|| []` fallback) and an unknown region
yields the generic lookup failure `none`. -/
theorem boundary_invalid_month (region : String) (month : Nat)
    (hm : month = 0 ∨ 12 < month) :
    getCurrentActivities region month =
      (schedulesFor region).map (fun _ => ([] : List String)) := by
  unfold getCurrentActivities
  have hts := schedule_tables_invalid_month month hm
  cases htab : schedulesFor region with
  | none => rfl
  | some t =>
      unfold schedulesFor at htab
      split at htab <;> simp_all

/-- Witness for the amended C3 theorem at the concrete invalid month 13. -/
theorem boundary_invalid_month_witness :
    getCurrentActivities "southern" 13 =
      (schedulesFor "southern").map (fun _ => ([] : List String)) :=
  boundary_invalid_month "southern" 13 (Or.inr (by decide))

/-- C4 counterexample: the claim says the central Winterizing base window is
months 10–11.  The shipped central schedule table recommends Winterizing in
month 12 and not in month 10, so (by the spec's ScheduleGenerator contract,
under which the schedule is exactly the window's month membership) the
central Winterizing window cannot be months 10–11. -/
theorem central_winterizing_window_not_oct_nov :
    "Winterizing" ∈ centralSchedule 12 ∧ "Winterizing" ∉ centralSchedule 10 := by
  decide

/-- C4 amended: GetTimingWindow(Seeding, Central) yields months 4–6 with
temperature 55–80°F (the months from the shipped table, the temperatures from
the spec-modelled catalog), while the central Winterizing window derived from
the shipped table is months 11–12, not 10–11. -/
theorem central_catalog_values_amended :
    effectiveWindow Region.Central Activity.Seeding = ⟨4, 6⟩ ∧
    tempRange Activity.Seeding = ⟨55, 80⟩ ∧
    effectiveWindow Region.Central Activity.Winterizing = ⟨11, 12⟩ := by
  decide

/-- C5: the month-membership test is the two-branch wraparound-aware
predicate — for `start <= end` membership is `start <= m <= end`, for
`start > end` it is `m >= start` or `m <= end` — and for the window 11–2 the
members among months 1–12 are exactly 11, 12, 1 and 2. -/
theorem month_membership_two_branch (s e m : Nat) :
    ((s ≤ e → (monthInWindow ⟨s, e⟩ m = true ↔ (s ≤ m ∧ m ≤ e))) ∧
     (e < s → (monthInWindow ⟨s, e⟩ m = true ↔ (s ≤ m ∨ m ≤ e)))) ∧
    (1 ≤ m → m ≤ 12 →
      (monthInWindow ⟨11, 2⟩ m = true ↔
        (m = 11 ∨ m = 12 ∨ m = 1 ∨ m = 2))) := by
  refine ⟨⟨?_, ?_⟩, ?_⟩
  · intro h
    simp only [monthInWindow, if_pos h, decide_eq_true_eq]
  · intro h
    simp only [monthInWindow]
    rw [if_neg (by omega)]
    simp only [decide_eq_true_eq]
  · intro h1 h2
    simp only [monthInWindow]
    rw [if_neg (by omega)]
    simp only [decide_eq_true_eq]
    omega

/-- Witness for C5 at concrete inputs: month 12 is inside the wrapping window
11–2, and month 5 is inside the plain window 4–6. -/
theorem month_membership_two_branch_witness :
    monthInWindow ⟨11, 2⟩ 12 = true ∧ monthInWindow ⟨4, 6⟩ 5 = true :=
  ⟨((month_membership_two_branch 11 2 12).2 (by decide) (by decide)).mpr
      (Or.inr (Or.inl rfl)),
   ((month_membership_two_branch 4 6 5).1.1 (by decide)).mpr
      ⟨by decide, by decide⟩⟩

/-- C6: classify is a three-way exhaustive partition — Optimal iff both the
month test and the (closed-interval) temperature test pass, NotRecommended
iff both fail, Suboptimal iff exactly one passes — and isOptimal holds iff
classify returns Optimal. -/
theorem classify_three_way_partition (a : Activity) (r : Region) (m : Nat)
    (h1 : 1 ≤ m) (h2 : m ≤ 12) (t : Int) :
    (classify a r m t = ActivityStatus.Optimal ↔
      (monthInWindow (effectiveWindow r a) m = true ∧
        tempInRange (tempRange a) t = true)) ∧
    (classify a r m t = ActivityStatus.NotRecommended ↔
      (monthInWindow (effectiveWindow r a) m = false ∧
        tempInRange (tempRange a) t = false)) ∧
    (classify a r m t = ActivityStatus.Suboptimal ↔
      monthInWindow (effectiveWindow r a) m ≠ tempInRange (tempRange a) t) ∧
    (isOptimal a r m t = true ↔ classify a r m t = ActivityStatus.Optimal) := by
  unfold isOptimal classify
  cases hmw : monthInWindow (effectiveWindow r a) m <;>
    cases htw : tempInRange (tempRange a) t <;> simp <;> decide

/-- Witness for C6: May at 70°F is Optimal for central Seeding (month 5 lies
in the 4–6 window and 70°F in the 55–80°F range). -/
theorem classify_three_way_partition_witness :
    classify Activity.Seeding Region.Central 5 70 = ActivityStatus.Optimal :=
  ((classify_three_way_partition Activity.Seeding Region.Central 5
      (by decide) (by decide) 70).1).mpr ⟨by decide, by decide⟩

/-- C7: whenever NextWindow succeeds, the returned start date is strictly
after the fromDate if the fromDate month is already inside the window, on or
after it otherwise, and the returned end date is never before the start even
across a year boundary. -/
theorem next_window_date_ordering (a : Activity) (r : Region) (y m : Nat)
    (h1 : 1 ≤ m) (h2 : m ≤ 12) (s e : Nat × Nat)
    (hr : nextWindow a r y m = some (s, e)) :
    (tableMember r a m = true → dateLt (y, m) s) ∧
    dateLe (y, m) s ∧ dateLe s e := by
  unfold nextWindow at hr
  have h := nextWindowFrom_some_spec (fun mm => tableMember r a mm) y m h1 h2 s e hr
  exact ⟨h.1, h.2.1, h.2.2.1⟩

/-- Witness for C7: from May 2024, central Seeding (window 4–6, May inside)
yields the strictly later June 2024 start with end not before start. -/
theorem next_window_date_ordering_witness :
    dateLt (2024, 5) (2024, 6) ∧ dateLe (2024, 5) (2024, 6) ∧
      dateLe (2024, 6) (2024, 6) := by
  have h := next_window_date_ordering Activity.Seeding Region.Central 2024 5
    (by decide) (by decide) (2024, 6) (2024, 6) (by decide)
  exact ⟨h.1 (by decide), h.2.1, h.2.2⟩

/-- C8: the forward circular scan terminates within 13 month-steps (the
returned start lies between fromDate and fromDate + 13 months), it returns
NoWindowFound (`none`) exactly when no month 1–12 is a member of the window,
and that case is unreachable under the shipped table because every activity
has a non-empty window in every region. -/
theorem next_window_scan_bounded_total (a : Activity) (r : Region) (y m : Nat)
    (h1 : 1 ≤ m) (h2 : m ≤ 12) :
    (∀ s e, nextWindow a r y m = some (s, e) →
      monthsIndex y m ≤ monthsIndex s.1 s.2 ∧
      monthsIndex s.1 s.2 ≤ monthsIndex y m + 13) ∧
    (nextWindow a r y m = none ↔
      ∀ mm, 1 ≤ mm → mm ≤ 12 → tableMember r a mm = false) ∧
    nextWindow a r y m ≠ none := by
  refine ⟨?_, ?_, ?_⟩
  · intro s e hr
    unfold nextWindow at hr
    have h := nextWindowFrom_some_spec (fun mm => tableMember r a mm) y m h1 h2 s e hr
    exact ⟨h.2.2.2.1, h.2.2.2.2⟩
  · unfold nextWindow
    exact nextWindowFrom_none_iff _ y m h1 h2
  · intro hnone
    unfold nextWindow at hnone
    rw [nextWindowFrom_none_iff _ y m h1 h2] at hnone
    obtain ⟨mm, hmm⟩ := tableMember_nonempty a r
    have hlt := mm.2
    have hfalse := hnone (mm.1 + 1) (by omega) (by omega)
    rw [hfalse] at hmm
    cases hmm

/-- Witness for C8: the scan succeeds for central Seeding from May 2024. -/
theorem next_window_scan_bounded_total_witness :
    nextWindow Activity.Seeding Region.Central 2024 5 ≠ none :=
  (next_window_scan_bounded_total Activity.Seeding Region.Central 2024 5
    (by decide) (by decide)).2.2

/-- C9: for the spring-establishment activity named by the spec (Seeding),
the window start months derived from the shipped tables are monotone across
regions: Southern (3) ≤ Central (4) ≤ Northern (4). -/
theorem seeding_regional_start_order :
    windowStart Region.Southern Activity.Seeding = 3 ∧
    windowStart Region.Central Activity.Seeding = 4 ∧
    windowStart Region.Northern Activity.Seeding = 4 ∧
    windowStart Region.Southern Activity.Seeding ≤
      windowStart Region.Central Activity.Seeding ∧
    windowStart Region.Central Activity.Seeding ≤
      windowStart Region.Northern Activity.Seeding := by
  decide

/-- C10: in every region, each activity's recommended months in the shipped
table form a single contiguous (possibly year-wrapping) run — exactly the
membership set of one MonthRange, namely the run delimited by windowStart and
windowEnd — the table has entries for all three region keys, and the northern
table maps months 1, 2 and 12 to the empty activity list. -/
theorem schedule_single_run_totality :
    (∀ (a : Activity) (r : Region) (m : Fin 12),
      tableMember r a (m.1 + 1) =
        monthInWindow (effectiveWindow r a) (m.1 + 1)) ∧
    ((schedulesFor "northern").isSome ∧ (schedulesFor "central").isSome ∧
      (schedulesFor "southern").isSome) ∧
    (northernSchedule 1 = [] ∧ northernSchedule 2 = [] ∧
      northernSchedule 12 = []) := by
  exact ⟨by decide, by decide, by decide⟩

end LawnCare
